import Mathlib

/-!
# zendesk_conditional: the two CloudEvents transformations

A shallow embedding of `zenformation/main.go` (the Sentiment Tagger) and
`conditionalization/main.go` (the Archival Tagger).

* Go values of type `error` are their messages (`Error := String`).
* Every call that leaves the process (the Comprehend classifier, the S3
  upload, `client.Send`) is recorded in a trace of `Effect`s, in program
  order; what the call answers is read from a `World` of oracles, so every
  theorem holds for every behaviour of the outside services.
* Calls on `recv.logger` and `log.Printf` change neither the control flow nor
  any value, and are left out of the trace.
* `strconv.Atoi` is embedded from the Go standard library for a 64-bit `int`,
  with the wrap-around of machine arithmetic made explicit.
-/

/-! ## strconv -/

namespace Strconv

/-- Width of Go's `int`: `const intSize = 32 << (^uint(0) >> 63)` on a 64-bit platform. -/
def intSize : Nat := 64

/-- The two `NumError.Err` values `Atoi` can report. -/
inductive NumError where
  | ErrSyntax
  | ErrRange
  deriving DecidableEq, Repr

/-- Two's-complement wrap-around of a mathematical integer into `int` / `int64`. -/
def wrapInt (x : Int) : Int := (x + 2 ^ 63) % 2 ^ 64 - 2 ^ 63

/-- Wrap-around of a natural number into `uint64`. -/
def wrapUint (x : Nat) : Nat := x % 2 ^ 64

/-- Test `'0' <= c && c <= '9'`. In the fast path of `Atoi` the same test is written
`ch -= '0'; ch > 9` on a byte. Strings are scanned character by character rather than
byte by byte: every byte of a multi-byte UTF-8 sequence is at least `0x80`, so it is
neither a sign, a digit nor a letter, and the scan stops at the same place. -/
def isDigit (c : Char) : Bool := decide ('0' ≤ c) && decide (c ≤ '9')

/-- The loop of the fast path of `Atoi`: `n = n*10 + int(ch)`, `none` for `syntaxError`. -/
def atoiLoop : Int → List Char → Option Int
  | n, [] => some n
  | n, ch :: rest =>
    if isDigit ch then atoiLoop (wrapInt (n * 10 + ((ch.toNat - 48 : Nat) : Int))) rest
    else none

/-- Fast path of `Atoi`, taken for `0 < len(s) < 19`; the guard keeps the empty string,
on which `s[0]` would fail, out of it. -/
def atoiFast (s0 : List Char) : Int × Option NumError :=
  match s0 with
  | [] => (0, some .ErrSyntax)
  | c :: rest =>
    let signed := decide (c = '-') || decide (c = '+')
    let s := if signed then rest else s0
    if signed && decide (s.length < 1) then (0, some .ErrSyntax)
    else
      match atoiLoop 0 s with
      | none => (0, some .ErrSyntax)
      | some n => (if c = '-' then wrapInt (-n) else n, none)

/-- Constant `maxUint64`. -/
def maxUint64 : Nat := 2 ^ 64 - 1

/-- Function `lower(c) = c | ('x' - 'X')` on a byte value. -/
def lower (c : Nat) : Nat := c ||| 0x20

/-- The `switch` of `ParseUint` that turns a character into a digit value: decimal
digits, then letters (worth 10 and more), `none` for the `default` case. -/
def digitOf (c : Char) : Option Nat :=
  if isDigit c then some (c.toNat - 48)
  else if c.toNat < 128 ∧ 97 ≤ lower c.toNat ∧ lower c.toNat ≤ 122 then
    some (lower c.toNat - 97 + 10)
  else none

/-- The loop of `ParseUint(s, 10, 0)`: `cutoff = maxUint64/10 + 1`,
`maxVal = 1<<64 - 1`; a range error is returned as soon as the value overflows, before
the rest of the string is looked at. -/
def parseUintLoop : Nat → List Char → Nat × Option NumError
  | n, [] => (n, none)
  | n, c :: rest =>
    match digitOf c with
    | none => (0, some .ErrSyntax)
    | some d =>
      if d ≥ 10 then (0, some .ErrSyntax)
      else if n ≥ maxUint64 / 10 + 1 then (maxUint64, some .ErrRange)
      else
        let n10 := wrapUint (n * 10)
        let n1 := wrapUint (n10 + d)
        if n1 < n10 ∨ n1 > maxUint64 then (maxUint64, some .ErrRange)
        else parseUintLoop n1 rest

/-- Function `ParseUint(s, 10, 0)`. -/
def ParseUint (s : List Char) : Nat × Option NumError :=
  if s = [] then (0, some .ErrSyntax) else parseUintLoop 0 s

/-- Function `ParseInt(s, 10, 0)`: the sign is picked off, the magnitude parsed by
`ParseUint`, and a magnitude out of range is clamped with `ErrRange`. -/
def ParseInt (s : List Char) : Int × Option NumError :=
  match s with
  | [] => (0, some .ErrSyntax)
  | c :: rest =>
    let neg := decide (c = '-')
    let body := if c = '+' ∨ c = '-' then rest else s
    match ParseUint body with
    | (_, some .ErrSyntax) => (0, some .ErrSyntax)
    | (un, _) =>
      let cutoff : Nat := 2 ^ (intSize - 1)
      if !neg && decide (un ≥ cutoff) then (((cutoff - 1 : Nat) : Int), some .ErrRange)
      else if neg && decide (un > cutoff) then (-(cutoff : Int), some .ErrRange)
      else
        let n := wrapInt (un : Int)
        (if neg then wrapInt (-n) else n, none)

/-- Function `strconv.Atoi`: the value and the error, both of which the caller receives. -/
def Atoi (s : String) : Int × Option NumError :=
  let sLen := s.utf8ByteSize
  if (intSize == 32 && (decide (0 < sLen) && decide (sLen < 10))) ||
      (intSize == 64 && (decide (0 < sLen) && decide (sLen < 19))) then
    atoiFast s.data
  else
    ParseInt s.data

/-- Value of a run of decimal digits read after the value `n`. -/
def digitsValue : Nat → List Char → Nat
  | n, [] => n
  | n, c :: cs => digitsValue (n * 10 + (c.toNat - 48)) cs

/-- A string without its leading `+` or `-`, if it has one. -/
def stripSign (s : List Char) : List Char :=
  match s with
  | [] => []
  | c :: rest => if c = '+' ∨ c = '-' then rest else s

/-- A string is syntactically a decimal integer when it is an optional sign followed by
one or more decimal digits and nothing else. -/
def isDecimalSyntax (s : String) : Bool :=
  !(stripSign s.data).isEmpty && (stripSign s.data).all isDigit

/-- The number written by the digits that follow the optional sign, up to the first
character that is not a digit. -/
def leadingDigitsValue (s : String) : Nat :=
  digitsValue 0 ((stripSign s.data).takeWhile isDigit)

/-- The decimal string of an integer: a minus sign for a negative number, then the
digits, without leading zeros. -/
def decimalString : Int → String
  | .ofNat m => Nat.repr m
  | .negSucc m => "-" ++ Nat.repr (m + 1)

end Strconv

/-! ## cloudevents -/

namespace Cloudevents

/-- A Go `error`, kept as its message. -/
abbrev Error := String

/-- A member value of the flat JSON objects the handlers emit. -/
inductive JValue where
  | num (n : Int)
  | str (s : String)
  deriving DecidableEq, Repr

/-- A JSON object as `encoding/json` writes a struct: its members in field order. -/
abbrev JObject := List (String × JValue)

/-- Payload of an event: none, the raw bytes of an inbound event, or an encoded document. -/
inductive Data where
  | empty
  | bytes (raw : String)
  | json (doc : JObject)
  deriving DecidableEq, Repr

/-- The attributes of `cloudevents.Event` the handlers read or write. -/
structure Event where
  specVersion : String
  type : String
  source : String
  subject : String
  time : Option Nat
  dataContentType : String
  data : Data
  deriving DecidableEq, Repr

/-- Constructor `cloudevents.NewEvent(cloudevents.VersionV1)`: every attribute but the version is unset. -/
def NewEvent : Event :=
  { specVersion := "1.0", type := "", source := "", subject := "", time := none,
    dataContentType := "", data := .empty }

/-- Method `SetType`. -/
def Event.SetType (e : Event) (t : String) : Event := { e with type := t }

/-- Method `SetSource`. -/
def Event.SetSource (e : Event) (s : String) : Event := { e with source := s }

/-- Method `SetSubject`. -/
def Event.SetSubject (e : Event) (s : String) : Event := { e with subject := s }

/-- Method `SetTime`. -/
def Event.SetTime (e : Event) (t : Nat) : Event := { e with time := some t }

/-- Method `Source`. -/
def Event.Source (e : Event) : String := e.source

/-- Method `SetData(contentType, obj)`: the content type is set, then the object is encoded;
`encoded` is what the codec made of `obj`, and its error is the error of `SetData`. -/
def Event.SetData (e : Event) (contentType : String) (encoded : Except Error JObject) :
    Except Error Event :=
  match encoded with
  | .error err => .error err
  | .ok doc => .ok { e with dataContentType := contentType, data := .json doc }

/-- A `cloudevents.Result`: `nil`, a result of `NewHTTPResult`, or the error of a failed call. -/
inductive Result where
  | ack
  | http (status : Nat) (message : String)
  | failed (err : Error)
  deriving DecidableEq, Repr

/-- Function `cloudevents.NewHTTPResult(status, format + "%s", err)`. -/
def NewHTTPResult (status : Nat) (format : String) (err : Error) : Result :=
  .http status (format ++ err)

/-- A call that leaves the process. -/
inductive Effect where
  | detectSentiment (languageCode text : String)
  | upload (bucket key body : String)
  | send (target : String) (event : Event)
  deriving DecidableEq, Repr

/-- Everything a handler reads from outside: the decoder behind `event.DataAs`, the
clock, the environment, and the answers of the classifier, of the uploader and of
`client.Send`. -/
structure World (Request : Type) where
  dataAs : Event → Except Error Request
  now : Nat
  getenv : String → String
  detectSentiment : String → String → Except Error String
  upload : String → String → String → Option Error
  send : String → Event → Result

/-- The `receiver interface{}` of `main`: one of the two handler bindings. -/
inductive Handler where
  | receiveAndReply
  | receiveAndSend
  deriving DecidableEq, Repr

end Cloudevents

open Cloudevents

/-! ## zenformation/main.go -/

namespace Zenformation

def ticketCreatedEventType : String := "com.zendesk.ticket.created"
def tagCreateEventType : String := "com.zendesk.tag.create"
def tagNegativeEventType : String := "com.zendesk.tag.negative"
def eventSource : String := "io.triggermesh.transformations.zendesk-sentiment-tag"

/-- The configured part of `Receiver`: `Target` is read from `K_SINK`. -/
structure Receiver where
  Target : String
  deriving DecidableEq, Repr

/-- Request is the structure of the event we expect to receive. -/
structure Request where
  ID : String
  Description : String
  deriving DecidableEq, Repr

/-- Response is the structure of the event we send in response to requests. -/
structure Response where
  ID : Int
  Description : String
  Tag : String
  deriving DecidableEq, Repr

/-- What `encoding/json` makes of a `Response`: the three members, in field order. A
struct of an `int64` and two strings always encodes. -/
def jsonMarshal (r : Response) : Except Error JObject :=
  .ok [("id", .num r.ID), ("description", .str r.Description), ("tag", .str r.Tag)]

/-- Method `askComprehend`: one `DetectSentiment` call with the language of `LANGUAGE`. -/
def askComprehend (w : World Request) (txt : String) : Except Error String × List Effect :=
  let languageCode := w.getenv "LANGUAGE"
  (w.detectSentiment languageCode txt, [Effect.detectSentiment languageCode txt])

/-- Method `handle`: the error of `Atoi` is logged and dropped, its value is kept. -/
def handle (w : World Request) (req : Request) : (Response × Option Error) × List Effect :=
  let (id, _err) := Strconv.Atoi req.ID
  match askComprehend w req.Description with
  | (.error err, tr) => (({ ID := 0, Description := "", Tag := "" }, some err), tr)
  | (.ok sentiment, tr) =>
    (({ ID := Strconv.wrapInt id, Tag := sentiment, Description := req.Description }, none), tr)

/-- Method `receiveAndReply`. -/
def receiveAndReply (_recv : Receiver) (w : World Request) (event : Event) :
    (Option Event × Result) × List Effect :=
  match w.dataAs event with
  | .error err => ((none, NewHTTPResult 400 "failed to convert data: " err), [])
  | .ok req =>
    let ((resp, _err), tr) := handle w req
    let r := NewEvent
    let r := if resp.Tag = "NEGATIVE" then r.SetType tagNegativeEventType
             else r.SetType tagCreateEventType
    let r := r.SetSubject "Zendesk Comprehend"
    let r := r.SetSource eventSource
    let r := r.SetTime w.now
    match r.SetData "application/json" (jsonMarshal resp) with
    | .error err => ((none, NewHTTPResult 500 "failed to set response data: " err), tr)
    | .ok r => ((some r, .ack), tr)

/-- Method `receiveAndSend`: the type is set on the inbound `event`, and `newEvent` is
what goes to `client.Send`. -/
def receiveAndSend (recv : Receiver) (w : World Request) (event : Event) :
    Result × List Effect :=
  match w.dataAs event with
  | .error err => (NewHTTPResult 400 "failed to convert data: " err, [])
  | .ok req =>
    let ((resp, _err), tr) := handle w req
    let newEvent := NewEvent
    let _event := if resp.Tag = "NEGATIVE" then event.SetType tagNegativeEventType
                  else event.SetType tagCreateEventType
    let newEvent := newEvent.SetSource ("transformations.zenformation" ++ w.getenv "NAMESPACE")
    let newEvent := newEvent.SetSubject "Zendesk Comprehend"
    let newEvent := newEvent.SetTime w.now
    match newEvent.SetData "application/json" (jsonMarshal resp) with
    | .error err => (NewHTTPResult 500 "failed to set response data: " err, tr)
    | .ok newEvent => (w.send recv.Target newEvent, tr ++ [Effect.send recv.Target newEvent])

/-- The branch of `main` on `r.Target`: the handler handed to `StartReceiver`. -/
def main (r : Receiver) : Handler :=
  if r.Target = "" then .receiveAndReply else .receiveAndSend

end Zenformation

/-! ## conditionalization/main.go -/

namespace Conditionalization

/-- The configured part of `Receiver`: `Target` is read from `K_SINK`, `Bucket` from `BUCKET`. -/
structure Receiver where
  Target : String
  Bucket : String
  deriving DecidableEq, Repr

/-- Request is the structure of the event we expect to receive. -/
structure Request where
  ID : Int
  Description : String
  Tag : String
  deriving DecidableEq, Repr

/-- Response is the structure of the event we send in response to requests. -/
structure Response where
  ID : Int
  Tag : String
  Description : String
  deriving DecidableEq, Repr

/-- What `encoding/json` makes of a `Response`: no field carries `omitempty`, so all
three members are written, in field order. -/
def jsonMarshal (r : Response) : Except Error JObject :=
  .ok [("id", .num r.ID), ("tag", .str r.Tag), ("description", .str r.Description)]

/-- Method `s3ification`: one `Upload` of `txt` under `event.Source() + ".txt"`. -/
def s3ification (recv : Receiver) (w : World Request) (txt : String) (event : Event) :
    Option Error × List Effect :=
  let bucket := recv.Bucket
  let filename := event.Source ++ ".txt"
  (w.upload bucket filename txt, [Effect.upload bucket filename txt])

/-- Method `handle`: the error of the upload, if any. -/
def handle (recv : Receiver) (w : World Request) (req : Request) (event : Event) :
    Option Error × List Effect :=
  match s3ification recv w req.Description event with
  | (some err, tr) => (some err, tr)
  | (none, tr) => (none, tr)

/-- Method `receiveAndSend`: the error of `handle` is logged and the event is sent all the same. -/
def receiveAndSend (recv : Receiver) (w : World Request) (event : Event) :
    Result × List Effect :=
  match w.dataAs event with
  | .error err => (NewHTTPResult 400 "failed to convert data: " err, [])
  | .ok req =>
    let (_err, tr) := handle recv w req event
    let newEvent := NewEvent
    let newEvent := newEvent.SetType "com.zendesk.tag.create"
    let newEvent := newEvent.SetSource ("transformations.conditionalization." ++ w.getenv "NAMESPACE")
    let newEvent := newEvent.SetSubject "Zendesk Comprehend"
    let newEvent := newEvent.SetTime w.now
    match newEvent.SetData "application/json"
        (jsonMarshal { ID := req.ID, Tag := req.Tag, Description := "" }) with
    | .error err => (NewHTTPResult 500 "failed to set response data: " err, tr)
    | .ok newEvent => (w.send recv.Target newEvent, tr ++ [Effect.send recv.Target newEvent])

/-- Method `receiveAndReply`: the error of `handle` is logged and the event is returned all the same. -/
def receiveAndReply (recv : Receiver) (w : World Request) (event : Event) :
    (Option Event × Result) × List Effect :=
  match w.dataAs event with
  | .error err => ((none, NewHTTPResult 400 "failed to convert data: " err), [])
  | .ok req =>
    let (_err, tr) := handle recv w req event
    let newEvent := NewEvent
    let newEvent := newEvent.SetType "com.zendesk.tag.create"
    let newEvent := newEvent.SetSource ("transformations.conditionalization." ++ w.getenv "NAMESPACE")
    let newEvent := newEvent.SetSubject "Zendesk Comprehend"
    let newEvent := newEvent.SetTime w.now
    match newEvent.SetData "application/json"
        (jsonMarshal { ID := req.ID, Tag := req.Tag, Description := "" }) with
    | .error err => ((none, NewHTTPResult 500 "failed to set response data: " err), tr)
    | .ok newEvent => ((some newEvent, .ack), tr)

/-- The branch of `main` on `r.Target`: the handler handed to `StartReceiver`. -/
def main (r : Receiver) : Handler :=
  if r.Target = "" then .receiveAndReply else .receiveAndSend

end Conditionalization

/-! ## Example inputs -/

namespace Cloudevents

/-- A decoder for examples: it knows the listed payloads and rejects every other one. -/
def tableDecoder {Request : Type} (known : List (String × Request)) (e : Event) :
    Except Error Request :=
  match e.data with
  | .bytes raw =>
    match known.lookup raw with
    | some req => .ok req
    | none => .error "invalid character"
  | _ => .error "unexpected end of JSON input"

/-- The environment of the examples. -/
def exampleEnv (key : String) : String :=
  if key = "LANGUAGE" then "en" else if key = "NAMESPACE" then "default" else ""

/-- Whether an effect is an upload. -/
def Effect.isUpload : Effect → Bool
  | .upload _ _ _ => true
  | _ => false

/-- Whether an effect is a call of `client.Send`. -/
def Effect.isSend : Effect → Bool
  | .send _ _ => true
  | _ => false

end Cloudevents

namespace Zenformation

/-- The payload of the end-to-end example of the Sentiment Tagger. -/
def ticketPayload : String := "\x7b\"id\":\"42\",\"description\":\"This is terrible\"\x7d"

/-- A payload whose id is twenty nines followed by a letter. -/
def longIdPayload : String :=
  "\x7b\"id\":\"99999999999999999999x\",\"description\":\"fine\"\x7d"

/-- A payload whose id is not a number. -/
def wordIdPayload : String := "\x7b\"id\":\"abc\",\"description\":\"fine\"\x7d"

/-- An inbound event carrying `raw`. -/
def inbound (raw : String) : Event :=
  { NewEvent with type := ticketCreatedEventType, source := "zendesk", data := .bytes raw }

/-- A world whose classifier gives `answer` and whose decoder knows the example payloads. -/
def exampleWorld (answer : Except Error String) : World Request :=
  { dataAs := tableDecoder
      [(ticketPayload, { ID := "42", Description := "This is terrible" }),
       (longIdPayload, { ID := "99999999999999999999x", Description := "fine" }),
       (wordIdPayload, { ID := "abc", Description := "fine" })]
    now := 1600000000
    getenv := exampleEnv
    detectSentiment := fun _ _ => answer
    upload := fun _ _ _ => none
    send := fun _ _ => .ack }

end Zenformation

namespace Conditionalization

/-- The payload of the end-to-end example of the Archival Tagger. -/
def orderPayload : String := "\x7b\"id\":99,\"description\":\"hello\",\"tag\":\"x\"\x7d"

/-- An inbound event carrying `raw`, with source `order-99`. -/
def inbound (raw : String) : Event :=
  { NewEvent with type := "com.zendesk.ticket.created", source := "order-99", data := .bytes raw }

/-- A world whose uploader gives `answer` and whose decoder knows the example payload. -/
def exampleWorld (answer : Option Error) : World Request :=
  { dataAs := tableDecoder [(orderPayload, { ID := 99, Description := "hello", Tag := "x" })]
    now := 1600000000
    getenv := exampleEnv
    detectSentiment := fun _ _ => .error "not used"
    upload := fun _ _ _ => answer
    send := fun _ _ => .ack }

end Conditionalization

/-! ## strconv: what `Atoi` returns -/

namespace Strconv

theorem wrapInt_of_int64 (x : Int) (h1 : -2 ^ 63 ≤ x) (h2 : x < 2 ^ 63) : wrapInt x = x := by
  unfold wrapInt
  omega

theorem isDigit_iff (c : Char) : isDigit c = true ↔ 48 ≤ c.toNat ∧ c.toNat ≤ 57 := by
  have h0 : ('0' ≤ c) ↔ 48 ≤ c.toNat := by
    rw [Char.le_def, UInt32.le_def]
    rfl
  have h9 : (c ≤ '9') ↔ c.toNat ≤ 57 := by
    rw [Char.le_def, UInt32.le_def]
    rfl
  unfold isDigit
  simp only [Bool.and_eq_true, decide_eq_true_eq, h0, h9]

theorem digitsValue_nil (n : Nat) : digitsValue n [] = n := rfl

theorem digitsValue_cons (n : Nat) (c : Char) (cs : List Char) :
    digitsValue n (c :: cs) = digitsValue (n * 10 + (c.toNat - 48)) cs := rfl

theorem atoiLoop_nil (n : Int) : atoiLoop n [] = some n := rfl

theorem atoiLoop_cons (n : Int) (c : Char) (cs : List Char) :
    atoiLoop n (c :: cs) =
      if isDigit c then atoiLoop (wrapInt (n * 10 + ((c.toNat - 48 : Nat) : Int))) cs
      else none := rfl

theorem digitsValue_ge (ds : List Char) : ∀ n, n ≤ digitsValue n ds := by
  induction ds with
  | nil => intro n; rw [digitsValue_nil]
  | cons c cs ih =>
    intro n
    have := ih (n * 10 + (c.toNat - 48))
    rw [digitsValue_cons]
    omega

theorem atoiLoop_digits (ds : List Char) : ∀ n : Nat, (∀ c ∈ ds, isDigit c = true) →
    digitsValue n ds < 2 ^ 63 → atoiLoop (n : Int) ds = some (digitsValue n ds : Int) := by
  induction ds with
  | nil => intro n _ _; rw [atoiLoop_nil, digitsValue_nil]
  | cons c cs ih =>
    intro n hd hv
    have hc : isDigit c = true := hd c (List.mem_cons_self _ _)
    have hge := digitsValue_ge cs (n * 10 + (c.toNat - 48))
    rw [digitsValue_cons] at hv ⊢
    have hw : wrapInt ((n : Int) * 10 + ((c.toNat - 48 : Nat) : Int))
        = ((n * 10 + (c.toNat - 48) : Nat) : Int) := by
      rw [wrapInt_of_int64] <;> push_cast <;> omega
    rw [atoiLoop_cons, hc, if_pos rfl, hw]
    exact ih _ (fun c hc => hd c (List.mem_cons_of_mem _ hc)) hv

theorem atoiLoop_none (ds : List Char) : ∀ n : Int, (∃ c ∈ ds, isDigit c = false) →
    atoiLoop n ds = none := by
  induction ds with
  | nil => intro n h; simp at h
  | cons c cs ih =>
    intro n h
    rw [atoiLoop_cons]
    by_cases hc : isDigit c = true
    · rw [hc, if_pos rfl]
      apply ih
      obtain ⟨x, hx, hxd⟩ := h
      rcases List.mem_cons.mp hx with rfl | hx
      · simp [hc] at hxd
      · exact ⟨x, hx, hxd⟩
    · simp [hc]

theorem parseUintLoop_nil (n : Nat) : parseUintLoop n [] = (n, none) := rfl

theorem parseUintLoop_cons (n : Nat) (c : Char) (rest : List Char) :
    parseUintLoop n (c :: rest) =
      match digitOf c with
      | none => (0, some .ErrSyntax)
      | some d =>
        if d ≥ 10 then (0, some .ErrSyntax)
        else if n ≥ maxUint64 / 10 + 1 then (maxUint64, some .ErrRange)
        else
          if wrapUint (wrapUint (n * 10) + d) < wrapUint (n * 10) ∨
              wrapUint (wrapUint (n * 10) + d) > maxUint64 then (maxUint64, some .ErrRange)
          else parseUintLoop (wrapUint (wrapUint (n * 10) + d)) rest := rfl

theorem maxUint64_eq : maxUint64 = 18446744073709551615 := by
  unfold maxUint64
  norm_num

theorem parseUintLoop_step (n : Nat) (c : Char) (rest : List Char) (hc : isDigit c = true)
    (h : n * 10 + (c.toNat - 48) < 2 ^ 64) :
    parseUintLoop n (c :: rest) = parseUintLoop (n * 10 + (c.toNat - 48)) rest := by
  have hr := (isDigit_iff c).mp hc
  have hd : digitOf c = some (c.toNat - 48) := by simp [digitOf, hc]
  have h10 : wrapUint (n * 10) = n * 10 := by unfold wrapUint; omega
  have h1 : wrapUint (n * 10 + (c.toNat - 48)) = n * 10 + (c.toNat - 48) := by
    unfold wrapUint; omega
  rw [parseUintLoop_cons, hd]
  simp only [h10, h1, maxUint64_eq]
  rw [if_neg (by omega), if_neg (by omega), if_neg (by omega)]

theorem parseUintLoop_bad (n : Nat) (c : Char) (rest : List Char) (hc : isDigit c = false) :
    parseUintLoop n (c :: rest) = (0, some .ErrSyntax) := by
  rw [parseUintLoop_cons]
  by_cases h : c.toNat < 128 ∧ 97 ≤ lower c.toNat ∧ lower c.toNat ≤ 122
  · have hd : digitOf c = some (lower c.toNat - 97 + 10) := by simp [digitOf, hc, h]
    rw [hd]
    simp only []
    rw [if_pos (by omega)]
  · have hd : digitOf c = none := by simp only [digitOf, hc, h]; simp
    rw [hd]

theorem parseUintLoop_digits (ds : List Char) : ∀ n : Nat, (∀ c ∈ ds, isDigit c = true) →
    digitsValue n ds < 2 ^ 64 → parseUintLoop n ds = (digitsValue n ds, none) := by
  induction ds with
  | nil => intro n _ _; rw [parseUintLoop_nil, digitsValue_nil]
  | cons c cs ih =>
    intro n hd hv
    have hge := digitsValue_ge cs (n * 10 + (c.toNat - 48))
    rw [digitsValue_cons] at hv ⊢
    rw [parseUintLoop_step n c cs (hd c (List.mem_cons_self _ _)) (by omega)]
    exact ih _ (fun c hc => hd c (List.mem_cons_of_mem _ hc)) hv

theorem parseUintLoop_bad_char (ds : List Char) : ∀ n : Nat,
    (∃ c ∈ ds, isDigit c = false) → digitsValue n (ds.takeWhile isDigit) < 2 ^ 64 →
    parseUintLoop n ds = (0, some .ErrSyntax) := by
  induction ds with
  | nil => intro n h; simp at h
  | cons c cs ih =>
    intro n h hv
    by_cases hc : isDigit c = true
    · rw [List.takeWhile_cons_of_pos hc, digitsValue_cons] at hv
      have hge := digitsValue_ge (cs.takeWhile isDigit) (n * 10 + (c.toNat - 48))
      rw [parseUintLoop_step n c cs hc (by omega)]
      apply ih _ _ hv
      obtain ⟨x, hx, hxd⟩ := h
      rcases List.mem_cons.mp hx with rfl | hx
      · simp [hc] at hxd
      · exact ⟨x, hx, hxd⟩
    · exact parseUintLoop_bad n c cs (by simpa using hc)

theorem not_sign_of_isDigit (c : Char) (hc : isDigit c = true) : c ≠ '-' ∧ c ≠ '+' := by
  have hr := (isDigit_iff c).mp hc
  constructor <;> rintro rfl <;> simp at hr

theorem atoiFast_bad (l : List Char)
    (h : stripSign l = [] ∨ ∃ c ∈ stripSign l, isDigit c = false) :
    atoiFast l = (0, some .ErrSyntax) := by
  cases l with
  | nil => rfl
  | cons c rest =>
    unfold atoiFast
    by_cases hs : c = '-' ∨ c = '+'
    · have hstrip : stripSign (c :: rest) = rest := by
        show (if c = '+' ∨ c = '-' then rest else c :: rest) = rest
        rw [if_pos (by tauto)]
      rw [hstrip] at h
      have hsig : (decide (c = '-') || decide (c = '+')) = true := by simpa using hs
      simp only [hsig, if_true, Bool.true_and]
      rcases h with h | h
      · subst h
        simp
      · rw [atoiLoop_none rest 0 h]
        split_ifs <;> rfl
    · have hstrip : stripSign (c :: rest) = c :: rest := by
        show (if c = '+' ∨ c = '-' then rest else c :: rest) = c :: rest
        rw [if_neg (by tauto)]
      rw [hstrip] at h
      have hsig : (decide (c = '-') || decide (c = '+')) = false := by simpa using hs
      have hbad : ∃ x ∈ c :: rest, isDigit x = false := by
        rcases h with h | h
        · simp at h
        · exact h
      simp only [hsig, Bool.false_and, Bool.false_eq_true, if_false]
      rw [atoiLoop_none (c :: rest) 0 hbad]

theorem ParseInt_bad (l : List Char)
    (h : stripSign l = [] ∨ ∃ c ∈ stripSign l, isDigit c = false)
    (hv : digitsValue 0 ((stripSign l).takeWhile isDigit) < 2 ^ 64) :
    ParseInt l = (0, some .ErrSyntax) := by
  cases l with
  | nil => rfl
  | cons c rest =>
    have hbody : (if c = '+' ∨ c = '-' then rest else c :: rest) = stripSign (c :: rest) := rfl
    have hu : ParseUint (stripSign (c :: rest)) = (0, some .ErrSyntax) := by
      unfold ParseUint
      rcases h with h | h
      · rw [if_pos h]
      · split_ifs
        · rfl
        · exact parseUintLoop_bad_char _ 0 h hv
    unfold ParseInt
    simp only [hbody, hu]

/-- On a string that is not an optional sign followed by digits only, `Atoi` returns 0
with a syntax error, provided the digits before the offending character do not
overflow 64 bits. -/
theorem Atoi_not_decimal (s : String) (h : isDecimalSyntax s = false)
    (hv : leadingDigitsValue s < 2 ^ 64) : Atoi s = (0, some .ErrSyntax) := by
  have hb : stripSign s.data = [] ∨ ∃ c ∈ stripSign s.data, isDigit c = false := by
    unfold isDecimalSyntax at h
    by_cases he : stripSign s.data = []
    · exact Or.inl he
    · right
      simpa [he] using h
  unfold Atoi
  simp only []
  split_ifs
  · exact atoiFast_bad _ hb
  · exact ParseInt_bad _ hb hv

theorem Atoi_digits (s : String) (ds : List Char) (hs : s.data = ds) (hne : ds ≠ [])
    (hd : ∀ c ∈ ds, isDigit c = true) (hv : digitsValue 0 ds < 2 ^ 63) :
    Atoi s = (((digitsValue 0 ds : Nat) : Int), none) := by
  obtain ⟨c, rest, rfl⟩ := List.exists_cons_of_ne_nil hne
  have hc := not_sign_of_isDigit c (hd c (List.mem_cons_self _ _))
  have hloop := atoiLoop_digits (c :: rest) 0 hd hv
  have hu := parseUintLoop_digits (c :: rest) 0 hd (by omega)
  unfold Atoi
  simp only [hs]
  split_ifs
  · unfold atoiFast
    simp only [hc.1, hc.2, decide_False, Bool.or_self, Bool.false_and, Bool.false_eq_true,
      if_false]
    rw [show ((0 : Nat) : Int) = 0 from rfl] at hloop
    rw [hloop]
  · unfold ParseInt ParseUint
    simp only [hc.1, hc.2, or_self, if_false, hu, decide_False, Bool.not_false, Bool.true_and,
      Bool.false_and, Bool.false_eq_true, intSize, reduceCtorEq]
    rw [if_neg (by simp; omega), wrapInt_of_int64 _ (by omega) (by omega)]

theorem Atoi_neg_digits (s : String) (ds : List Char) (hs : s.data = '-' :: ds) (hne : ds ≠ [])
    (hd : ∀ c ∈ ds, isDigit c = true) (hv : digitsValue 0 ds < 2 ^ 63) :
    Atoi s = (-((digitsValue 0 ds : Nat) : Int), none) := by
  have hloop := atoiLoop_digits ds 0 hd hv
  have hu := parseUintLoop_digits ds 0 hd (by omega)
  have hlen : ¬ ds.length < 1 := by
    cases ds with
    | nil => exact absurd rfl hne
    | cons _ _ => simp
  have hw : wrapInt ((digitsValue 0 ds : Nat) : Int) = ((digitsValue 0 ds : Nat) : Int) :=
    wrapInt_of_int64 _ (by omega) (by omega)
  have hw2 : wrapInt (-((digitsValue 0 ds : Nat) : Int)) = -((digitsValue 0 ds : Nat) : Int) :=
    wrapInt_of_int64 _ (by omega) (by omega)
  unfold Atoi
  simp only [hs]
  split_ifs
  · unfold atoiFast
    simp only [decide_True, Bool.true_or, if_true, Bool.true_and, hlen, decide_False,
      Bool.false_eq_true, if_false]
    rw [show ((0 : Nat) : Int) = 0 from rfl] at hloop
    rw [hloop]
    simp only [hw2]
  · have hnil : ¬ ds = [] := hne
    unfold ParseInt ParseUint
    simp only [or_true, if_true, hnil, if_false, hu, decide_True, Bool.not_true,
      Bool.false_and, Bool.true_and, Bool.false_eq_true, intSize]
    rw [if_neg (by simp; omega)]
    simp only [hw, hw2]

theorem digitChar_value (k : Nat) (hk : k < 10) :
    isDigit (Nat.digitChar k) = true ∧ (Nat.digitChar k).toNat - 48 = k := by
  interval_cases k <;> exact ⟨by decide, by decide⟩

theorem toDigitsCore_isDigit (fuel : Nat) : ∀ (n : Nat) (ds : List Char),
    (∀ c ∈ ds, isDigit c = true) → ∀ c ∈ Nat.toDigitsCore 10 fuel n ds, isDigit c = true := by
  induction fuel with
  | zero => intro n ds hds; simpa [Nat.toDigitsCore] using hds
  | succ fuel ih =>
    intro n ds hds
    have hd := (digitChar_value (n % 10) (Nat.mod_lt _ (by decide))).1
    have hcons : ∀ c ∈ Nat.digitChar (n % 10) :: ds, isDigit c = true := by
      intro c hc
      rcases List.mem_cons.mp hc with rfl | hc
      · exact hd
      · exact hds c hc
    simp only [Nat.toDigitsCore]
    split_ifs
    · exact hcons
    · exact ih _ _ hcons

theorem toDigitsCore_ne_nil (fuel : Nat) : ∀ (n : Nat) (ds : List Char),
    ds ≠ [] → Nat.toDigitsCore 10 fuel n ds ≠ [] := by
  induction fuel with
  | zero => intro n ds hds; simpa [Nat.toDigitsCore] using hds
  | succ fuel ih =>
    intro n ds _
    simp only [Nat.toDigitsCore]
    split_ifs
    · simp
    · exact ih _ _ (by simp)

theorem toDigitsCore_value (fuel : Nat) : ∀ (n : Nat) (ds : List Char), n < fuel →
    digitsValue 0 (Nat.toDigitsCore 10 fuel n ds) = digitsValue n ds := by
  induction fuel with
  | zero => intro n ds h; omega
  | succ fuel ih =>
    intro n ds h
    have hd := (digitChar_value (n % 10) (Nat.mod_lt _ (by decide))).2
    simp only [Nat.toDigitsCore]
    split_ifs with h0
    · rw [digitsValue_cons, hd]
      congr 1
      omega
    · rw [ih (n / 10) _ (by omega), digitsValue_cons, hd]
      congr 1
      omega

theorem repr_digits (m : Nat) :
    (Nat.repr m).data = Nat.toDigits 10 m ∧ Nat.toDigits 10 m ≠ [] ∧
    (∀ c ∈ Nat.toDigits 10 m, isDigit c = true) ∧ digitsValue 0 (Nat.toDigits 10 m) = m := by
  refine ⟨rfl, ?_, ?_, ?_⟩
  · unfold Nat.toDigits
    simp only [Nat.toDigitsCore]
    split_ifs
    · simp
    · exact toDigitsCore_ne_nil _ _ _ (by simp)
  · exact toDigitsCore_isDigit _ _ _ (by simp)
  · exact toDigitsCore_value _ _ _ (by omega)

/-- Function `Atoi` reads back the decimal string of every integer in the range of `int`. -/
theorem Atoi_decimalString (n : Int) (h1 : -2 ^ 63 ≤ n) (h2 : n < 2 ^ 63) :
    Atoi (decimalString n) = (n, none) := by
  cases n with
  | ofNat m =>
    obtain ⟨hdata, hne, hd, hv⟩ := repr_digits m
    have h := Atoi_digits (Nat.repr m) _ hdata hne hd (by rw [hv]; simp at h2; omega)
    rw [hv] at h
    exact h
  | negSucc m =>
    by_cases hm : m + 1 < 2 ^ 63
    · obtain ⟨hdata, hne, hd, hv⟩ := repr_digits (m + 1)
      have hs : (decimalString (Int.negSucc m)).data = '-' :: Nat.toDigits 10 (m + 1) := by
        show ("-" ++ Nat.repr (m + 1)).data = _
        rw [String.data_append, hdata]
        rfl
      have h := Atoi_neg_digits _ _ hs hne hd (by rw [hv]; exact hm)
      rw [hv] at h
      rw [h, Int.negSucc_eq]
      push_cast
      rfl
    · have hmv : m = 9223372036854775807 := by
        have : Int.negSucc m = -((m : Int) + 1) := Int.negSucc_eq m
        omega
      subst hmv
      decide

end Strconv

/-! ## zenformation: the handlers, step by step -/

namespace Zenformation

theorem handle_ok (w : World Request) (req : Request) (s : String)
    (h : w.detectSentiment (w.getenv "LANGUAGE") req.Description = .ok s) :
    handle w req =
      (({ ID := Strconv.wrapInt (Strconv.Atoi req.ID).1, Tag := s,
          Description := req.Description }, none),
        [Effect.detectSentiment (w.getenv "LANGUAGE") req.Description]) := by
  simp only [handle, askComprehend, h]

theorem handle_error (w : World Request) (req : Request) (e : Error)
    (h : w.detectSentiment (w.getenv "LANGUAGE") req.Description = .error e) :
    handle w req =
      (({ ID := 0, Description := "", Tag := "" }, some e),
        [Effect.detectSentiment (w.getenv "LANGUAGE") req.Description]) := by
  simp only [handle, askComprehend, h]

theorem handle_trace (w : World Request) (req : Request) :
    (handle w req).2 = [Effect.detectSentiment (w.getenv "LANGUAGE") req.Description] := by
  cases h : w.detectSentiment (w.getenv "LANGUAGE") req.Description with
  | ok s => rw [handle_ok w req s h]
  | error e => rw [handle_error w req e h]

theorem receiveAndReply_decoded (recv : Receiver) (w : World Request) (event : Event)
    (req : Request) (h : w.dataAs event = .ok req) :
    receiveAndReply recv w event =
      ((some
          { specVersion := "1.0"
            type := if (handle w req).1.1.Tag = "NEGATIVE" then tagNegativeEventType
                    else tagCreateEventType
            source := eventSource
            subject := "Zendesk Comprehend"
            time := some w.now
            dataContentType := "application/json"
            data := .json [("id", .num (handle w req).1.1.ID),
              ("description", .str (handle w req).1.1.Description),
              ("tag", .str (handle w req).1.1.Tag)] }, Result.ack),
        (handle w req).2) := by
  simp only [receiveAndReply, h, jsonMarshal, Event.SetData, NewEvent, Event.SetType,
    Event.SetSubject, Event.SetSource, Event.SetTime]
  split_ifs <;> rfl

theorem receiveAndSend_decoded (recv : Receiver) (w : World Request) (event : Event)
    (req : Request) (h : w.dataAs event = .ok req) :
    receiveAndSend recv w event =
      (w.send recv.Target
          { specVersion := "1.0"
            type := ""
            source := "transformations.zenformation" ++ w.getenv "NAMESPACE"
            subject := "Zendesk Comprehend"
            time := some w.now
            dataContentType := "application/json"
            data := .json [("id", .num (handle w req).1.1.ID),
              ("description", .str (handle w req).1.1.Description),
              ("tag", .str (handle w req).1.1.Tag)] },
        (handle w req).2 ++ [Effect.send recv.Target
          { specVersion := "1.0"
            type := ""
            source := "transformations.zenformation" ++ w.getenv "NAMESPACE"
            subject := "Zendesk Comprehend"
            time := some w.now
            dataContentType := "application/json"
            data := .json [("id", .num (handle w req).1.1.ID),
              ("description", .str (handle w req).1.1.Description),
              ("tag", .str (handle w req).1.1.Tag)] }]) := by
  simp only [receiveAndSend, h, jsonMarshal, Event.SetData, NewEvent,
    Event.SetSubject, Event.SetSource, Event.SetTime]

end Zenformation

/-! ## zenformation: the Sentiment Tagger -/

namespace Zenformation

/-- C1: in reply mode, for every decodable request and every classifier outcome, an event
is returned with a success result; its payload carries the label of the response (the
classifier's label, or the empty label when the classifier failed), and its type is
`com.zendesk.tag.negative` if that label is exactly `NEGATIVE` and
`com.zendesk.tag.create` for every other label. -/
theorem receiveAndReply_type_follows_label (recv : Receiver) (w : World Request)
    (event : Event) (req : Request) (hdec : w.dataAs event = .ok req) :
    ∃ ev resp,
      (receiveAndReply recv w event).1 = (some ev, Result.ack) ∧
      resp = (handle w req).1.1 ∧
      ev.data = .json [("id", .num resp.ID), ("description", .str resp.Description),
        ("tag", .str resp.Tag)] ∧
      (∀ s, w.detectSentiment (w.getenv "LANGUAGE") req.Description = .ok s → resp.Tag = s) ∧
      (∀ e, w.detectSentiment (w.getenv "LANGUAGE") req.Description = .error e →
        resp.Tag = "") ∧
      (resp.Tag = "NEGATIVE" → ev.type = "com.zendesk.tag.negative") ∧
      (resp.Tag ≠ "NEGATIVE" → ev.type = "com.zendesk.tag.create") := by
  rw [receiveAndReply_decoded recv w event req hdec]
  refine ⟨_, _, rfl, rfl, rfl, ?_, ?_, ?_, ?_⟩
  · intro s hs
    rw [handle_ok w req s hs]
  · intro e he
    rw [handle_error w req e he]
  · intro ht
    simp only [ht, if_true]
    rfl
  · intro ht
    simp only [ht, if_false]
    rfl

/-- C1, at the end-to-end example: the label `NEGATIVE` gives the negative type. -/
theorem receiveAndReply_type_follows_label_witness :
    ∃ ev resp,
      (receiveAndReply ⟨""⟩ (exampleWorld (.ok "NEGATIVE")) (inbound ticketPayload)).1
        = (some ev, Result.ack) ∧
      resp = (handle (exampleWorld (.ok "NEGATIVE"))
        { ID := "42", Description := "This is terrible" }).1.1 ∧
      ev.data = .json [("id", .num resp.ID), ("description", .str resp.Description),
        ("tag", .str resp.Tag)] ∧
      (∀ s, (exampleWorld (.ok "NEGATIVE")).detectSentiment
          ((exampleWorld (.ok "NEGATIVE")).getenv "LANGUAGE") "This is terrible" = .ok s →
        resp.Tag = s) ∧
      (∀ e, (exampleWorld (.ok "NEGATIVE")).detectSentiment
          ((exampleWorld (.ok "NEGATIVE")).getenv "LANGUAGE") "This is terrible" = .error e →
        resp.Tag = "") ∧
      (resp.Tag = "NEGATIVE" → ev.type = "com.zendesk.tag.negative") ∧
      (resp.Tag ≠ "NEGATIVE" → ev.type = "com.zendesk.tag.create") :=
  receiveAndReply_type_follows_label ⟨""⟩ (exampleWorld (.ok "NEGATIVE"))
    (inbound ticketPayload) { ID := "42", Description := "This is terrible" } rfl

/-- C2, the code at the failing input: in forward mode, with the example ticket and a
classifier that answers `NEGATIVE`, the one event handed to `client.Send` has the empty
type, which is neither `com.zendesk.tag.negative` nor `com.zendesk.tag.create`. -/
theorem receiveAndSend_forwards_untyped_event :
    ∃ ev,
      (receiveAndSend ⟨"http://sink"⟩ (exampleWorld (.ok "NEGATIVE"))
          (inbound ticketPayload)).2
        = [Effect.detectSentiment "en" "This is terrible", Effect.send "http://sink" ev] ∧
      ev.type = "" ∧
      ev.type ≠ tagNegativeEventType ∧ ev.type ≠ tagCreateEventType ∧
      ev.data = .json [("id", .num 42), ("description", .str "This is terrible"),
        ("tag", .str "NEGATIVE")] := by
  rw [receiveAndSend_decoded _ _ _ { ID := "42", Description := "This is terrible" } rfl,
    handle_ok _ _ "NEGATIVE" rfl]
  exact ⟨_, rfl, rfl, by decide, by decide, by decide⟩

/-- C5: in reply mode, when the id of the request is the decimal string of an integer
`n` in the range of `int` and the classifier answers `s`, one classifier call is made on
the description, the result is a success, and the event returned carries the payload
`id = n`, `description = d`, `tag = s`, with the type that goes with `s`. -/
theorem receiveAndReply_payload (recv : Receiver) (w : World Request) (event : Event)
    (n : Int) (d s : String)
    (hdec : w.dataAs event = .ok { ID := Strconv.decimalString n, Description := d })
    (hlo : -2 ^ 63 ≤ n) (hhi : n < 2 ^ 63)
    (hcls : w.detectSentiment (w.getenv "LANGUAGE") d = .ok s) :
    ∃ ev,
      receiveAndReply recv w event
        = ((some ev, Result.ack), [Effect.detectSentiment (w.getenv "LANGUAGE") d]) ∧
      ev.data = .json [("id", .num n), ("description", .str d), ("tag", .str s)] ∧
      ev.type = (if s = "NEGATIVE" then "com.zendesk.tag.negative"
                 else "com.zendesk.tag.create") := by
  rw [receiveAndReply_decoded recv w event _ hdec, handle_ok w _ s hcls]
  simp only [Strconv.Atoi_decimalString n hlo hhi, Strconv.wrapInt_of_int64 n hlo hhi]
  exact ⟨_, rfl, rfl, rfl⟩

/-- C5, at the end-to-end example: id `"42"`, description `"This is terrible"` and the
label `NEGATIVE` give id 42, the same description, tag `NEGATIVE` and the negative type. -/
theorem receiveAndReply_payload_witness :
    ∃ ev,
      receiveAndReply ⟨""⟩ (exampleWorld (.ok "NEGATIVE")) (inbound ticketPayload)
        = ((some ev, Result.ack), [Effect.detectSentiment "en" "This is terrible"]) ∧
      ev.data = .json [("id", .num 42), ("description", .str "This is terrible"),
        ("tag", .str "NEGATIVE")] ∧
      ev.type = "com.zendesk.tag.negative" :=
  receiveAndReply_payload ⟨""⟩ (exampleWorld (.ok "NEGATIVE")) (inbound ticketPayload)
    42 "This is terrible" "NEGATIVE" rfl (by decide) (by decide) rfl

/-- C8: when the classifier call fails, whatever the id, `handle` returns the error with
a zeroed `Response`; `receiveAndReply` still returns a success result and an event of
type `com.zendesk.tag.create` whose payload has id 0, an empty tag and an empty
description. -/
theorem receiveAndReply_fails_open (recv : Receiver) (w : World Request) (event : Event)
    (req : Request) (e : Error) (hdec : w.dataAs event = .ok req)
    (hcls : w.detectSentiment (w.getenv "LANGUAGE") req.Description = .error e) :
    (handle w req).1 = ({ ID := 0, Description := "", Tag := "" }, some e) ∧
    ∃ ev,
      (receiveAndReply recv w event).1 = (some ev, Result.ack) ∧
      ev.type = "com.zendesk.tag.create" ∧
      ev.data = .json [("id", .num 0), ("description", .str ""), ("tag", .str "")] := by
  rw [receiveAndReply_decoded recv w event req hdec, handle_error w req e hcls]
  exact ⟨rfl, _, rfl, rfl, rfl⟩

/-- C8, at the example ticket with a classifier that fails. -/
theorem receiveAndReply_fails_open_witness :
    (handle (exampleWorld (.error "throttled"))
        { ID := "42", Description := "This is terrible" }).1
      = ({ ID := 0, Description := "", Tag := "" }, some "throttled") ∧
    ∃ ev,
      (receiveAndReply ⟨""⟩ (exampleWorld (.error "throttled")) (inbound ticketPayload)).1
        = (some ev, Result.ack) ∧
      ev.type = "com.zendesk.tag.create" ∧
      ev.data = .json [("id", .num 0), ("description", .str ""), ("tag", .str "")] :=
  receiveAndReply_fails_open ⟨""⟩ (exampleWorld (.error "throttled")) (inbound ticketPayload)
    { ID := "42", Description := "This is terrible" } "throttled" rfl rfl

/-- C10 as stated fails: the id `99999999999999999999x` is not syntactically a decimal
integer, yet with a classifier that answers `POSITIVE` the `Response` of `handle` has
id 9223372036854775807, not 0, because `Atoi` reports the overflow of the leading digits
before it reaches the letter. -/
theorem handle_long_id_not_zero :
    Strconv.isDecimalSyntax "99999999999999999999x" = false ∧
    (exampleWorld (.ok "POSITIVE")).dataAs (inbound longIdPayload)
      = .ok { ID := "99999999999999999999x", Description := "fine" } ∧
    handle (exampleWorld (.ok "POSITIVE"))
        { ID := "99999999999999999999x", Description := "fine" }
      = (({ ID := 9223372036854775807, Description := "fine", Tag := "POSITIVE" }, none),
          [Effect.detectSentiment "en" "fine"]) ∧
    (handle (exampleWorld (.ok "POSITIVE"))
        { ID := "99999999999999999999x", Description := "fine" }).1.1.ID ≠ 0 := by
  refine ⟨by decide, rfl, ?_, ?_⟩
  · rw [handle_ok _ _ "POSITIVE" rfl]
    decide
  · rw [handle_ok _ _ "POSITIVE" rfl]
    decide

/-- C10, amended: when the id is not syntactically a decimal integer and the digits
between its optional sign and the first offending character do not exceed `2^64 - 1`,
the classifier is called exactly once, with the description, and when it answers `s`
`handle` returns no error and a `Response` with id 0, tag `s` and the description. -/
theorem handle_unparsable_id (w : World Request) (req : Request)
    (hsyn : Strconv.isDecimalSyntax req.ID = false)
    (hlead : Strconv.leadingDigitsValue req.ID < 2 ^ 64) :
    (handle w req).2 = [Effect.detectSentiment (w.getenv "LANGUAGE") req.Description] ∧
    ∀ s, w.detectSentiment (w.getenv "LANGUAGE") req.Description = .ok s →
      (handle w req).1 = ({ ID := 0, Description := req.Description, Tag := s }, none) := by
  refine ⟨handle_trace w req, ?_⟩
  intro s hs
  rw [handle_ok w req s hs, Strconv.Atoi_not_decimal req.ID hsyn hlead]
  rfl

/-- C10 amended, at the id `abc`. -/
theorem handle_unparsable_id_witness :
    (handle (exampleWorld (.ok "POSITIVE")) { ID := "abc", Description := "fine" }).2
      = [Effect.detectSentiment "en" "fine"] ∧
    ∀ s, (exampleWorld (.ok "POSITIVE")).detectSentiment "en" "fine" = .ok s →
      (handle (exampleWorld (.ok "POSITIVE")) { ID := "abc", Description := "fine" }).1
        = ({ ID := 0, Description := "fine", Tag := s }, none) :=
  handle_unparsable_id (exampleWorld (.ok "POSITIVE")) { ID := "abc", Description := "fine" }
    (by decide) (by decide)

end Zenformation

/-! ## conditionalization: the handlers, step by step -/

namespace Conditionalization

theorem handle_eq (recv : Receiver) (w : World Request) (req : Request) (event : Event) :
    handle recv w req event =
      (w.upload recv.Bucket (event.source ++ ".txt") req.Description,
        [Effect.upload recv.Bucket (event.source ++ ".txt") req.Description]) := by
  simp only [handle, s3ification, Event.Source]
  cases w.upload recv.Bucket (event.source ++ ".txt") req.Description <;> rfl

theorem archiveReply_decoded (recv : Receiver) (w : World Request) (event : Event)
    (req : Request) (h : w.dataAs event = .ok req) :
    receiveAndReply recv w event =
      ((some
          { specVersion := "1.0"
            type := "com.zendesk.tag.create"
            source := "transformations.conditionalization." ++ w.getenv "NAMESPACE"
            subject := "Zendesk Comprehend"
            time := some w.now
            dataContentType := "application/json"
            data := .json [("id", .num req.ID), ("tag", .str req.Tag),
              ("description", .str "")] }, Result.ack),
        [Effect.upload recv.Bucket (event.source ++ ".txt") req.Description]) := by
  simp only [receiveAndReply, h, handle_eq, jsonMarshal, Event.SetData, NewEvent,
    Event.SetType, Event.SetSubject, Event.SetSource, Event.SetTime]

theorem archiveSend_decoded (recv : Receiver) (w : World Request) (event : Event)
    (req : Request) (h : w.dataAs event = .ok req) :
    receiveAndSend recv w event =
      (w.send recv.Target
          { specVersion := "1.0"
            type := "com.zendesk.tag.create"
            source := "transformations.conditionalization." ++ w.getenv "NAMESPACE"
            subject := "Zendesk Comprehend"
            time := some w.now
            dataContentType := "application/json"
            data := .json [("id", .num req.ID), ("tag", .str req.Tag),
              ("description", .str "")] },
        [Effect.upload recv.Bucket (event.source ++ ".txt") req.Description,
         Effect.send recv.Target
          { specVersion := "1.0"
            type := "com.zendesk.tag.create"
            source := "transformations.conditionalization." ++ w.getenv "NAMESPACE"
            subject := "Zendesk Comprehend"
            time := some w.now
            dataContentType := "application/json"
            data := .json [("id", .num req.ID), ("tag", .str req.Tag),
              ("description", .str "")] }]) := by
  simp only [receiveAndSend, h, handle_eq, jsonMarshal, Event.SetData, NewEvent,
    Event.SetType, Event.SetSubject, Event.SetSource, Event.SetTime, List.singleton_append]

end Conditionalization

/-! ## conditionalization: the Archival Tagger -/

namespace Conditionalization

/-- C3 as stated fails: at the example order, with an upload that fails, `handle`
returns the error, yet `receiveAndReply` returns an event with a success result and
`receiveAndSend` sends that event to the sink. -/
theorem upload_failure_still_emits :
    ∃ ev,
      (exampleWorld (some "AccessDenied")).dataAs (inbound orderPayload)
        = .ok { ID := 99, Description := "hello", Tag := "x" } ∧
      (exampleWorld (some "AccessDenied")).upload "archive" "order-99.txt" "hello"
        = some "AccessDenied" ∧
      (handle ⟨"http://sink", "archive"⟩ (exampleWorld (some "AccessDenied"))
        { ID := 99, Description := "hello", Tag := "x" } (inbound orderPayload)).1
        = some "AccessDenied" ∧
      (receiveAndReply ⟨"", "archive"⟩ (exampleWorld (some "AccessDenied"))
        (inbound orderPayload)).1 = (some ev, Result.ack) ∧
      Effect.send "http://sink" ev ∈
        (receiveAndSend ⟨"http://sink", "archive"⟩ (exampleWorld (some "AccessDenied"))
          (inbound orderPayload)).2 := by
  rw [archiveReply_decoded _ _ _ { ID := 99, Description := "hello", Tag := "x" } rfl,
    archiveSend_decoded _ _ _ { ID := 99, Description := "hello", Tag := "x" } rfl,
    handle_eq]
  exact ⟨_, rfl, rfl, rfl, rfl, by simp⟩

/-- C3, amended: when the upload fails, `handle` returns that error, and the handlers
only log it: `receiveAndReply` still returns the `com.zendesk.tag.create` event with a
success result, and `receiveAndSend` still sends that event to the sink. -/
theorem upload_failure_only_logged (recv : Receiver) (w : World Request) (event : Event)
    (req : Request) (e : Error) (hdec : w.dataAs event = .ok req)
    (hup : w.upload recv.Bucket (event.source ++ ".txt") req.Description = some e) :
    (handle recv w req event).1 = some e ∧
    ∃ ev,
      ev.type = "com.zendesk.tag.create" ∧
      ev.data = .json [("id", .num req.ID), ("tag", .str req.Tag), ("description", .str "")] ∧
      (receiveAndReply recv w event).1 = (some ev, Result.ack) ∧
      (receiveAndSend recv w event).2
        = [Effect.upload recv.Bucket (event.source ++ ".txt") req.Description,
           Effect.send recv.Target ev] := by
  rw [archiveReply_decoded recv w event req hdec,
    archiveSend_decoded recv w event req hdec, handle_eq, hup]
  exact ⟨rfl, _, rfl, rfl, rfl, rfl⟩

/-- C3 amended, at the example order with an upload that fails. -/
theorem upload_failure_only_logged_witness :
    (handle ⟨"http://sink", "archive"⟩ (exampleWorld (some "AccessDenied"))
      { ID := 99, Description := "hello", Tag := "x" } (inbound orderPayload)).1
      = some "AccessDenied" ∧
    ∃ ev,
      ev.type = "com.zendesk.tag.create" ∧
      ev.data = .json [("id", .num 99), ("tag", .str "x"), ("description", .str "")] ∧
      (receiveAndReply ⟨"http://sink", "archive"⟩ (exampleWorld (some "AccessDenied"))
        (inbound orderPayload)).1 = (some ev, Result.ack) ∧
      (receiveAndSend ⟨"http://sink", "archive"⟩ (exampleWorld (some "AccessDenied"))
        (inbound orderPayload)).2
        = [Effect.upload "archive" ("order-99" ++ ".txt") "hello",
           Effect.send "http://sink" ev] :=
  upload_failure_only_logged ⟨"http://sink", "archive"⟩ (exampleWorld (some "AccessDenied"))
    (inbound orderPayload) { ID := 99, Description := "hello", Tag := "x" } "AccessDenied"
    rfl rfl

/-- C6: for every decodable request, each handler performs exactly one upload: to the
configured bucket, under the key made of the source of the event followed by `.txt`,
with the description as body. In reply mode it is the only outside call; in forward mode
it is the only upload and it comes before the send. -/
theorem one_upload_keyed_by_source (recv : Receiver) (w : World Request) (event : Event)
    (req : Request) (hdec : w.dataAs event = .ok req) :
    (receiveAndReply recv w event).2
      = [Effect.upload recv.Bucket (event.Source ++ ".txt") req.Description] ∧
    (receiveAndSend recv w event).2.filter Effect.isUpload
      = [Effect.upload recv.Bucket (event.Source ++ ".txt") req.Description] ∧
    (∃ ev, (receiveAndSend recv w event).2
      = [Effect.upload recv.Bucket (event.Source ++ ".txt") req.Description,
         Effect.send recv.Target ev]) := by
  rw [archiveReply_decoded recv w event req hdec,
    archiveSend_decoded recv w event req hdec]
  exact ⟨rfl, rfl, _, rfl⟩

/-- C6, at the end-to-end example: source `order-99` and description `hello` write the
blob `order-99.txt` with content `hello`. -/
theorem one_upload_keyed_by_source_witness :
    (receiveAndReply ⟨"", "archive"⟩ (exampleWorld none) (inbound orderPayload)).2
      = [Effect.upload "archive" "order-99.txt" "hello"] ∧
    (receiveAndSend ⟨"", "archive"⟩ (exampleWorld none) (inbound orderPayload)).2.filter
        Effect.isUpload
      = [Effect.upload "archive" "order-99.txt" "hello"] ∧
    (∃ ev, (receiveAndSend ⟨"", "archive"⟩ (exampleWorld none) (inbound orderPayload)).2
      = [Effect.upload "archive" "order-99.txt" "hello", Effect.send "" ev]) :=
  one_upload_keyed_by_source ⟨"", "archive"⟩ (exampleWorld none) (inbound orderPayload)
    { ID := 99, Description := "hello", Tag := "x" } rfl

/-- C7 as stated fails: at the end-to-end example the payload of the reply has three
members, `id`, `tag` and an empty `description`; it is not the object with exactly the
members `id` and `tag`. -/
theorem reply_payload_has_description_member :
    ∃ ev,
      (exampleWorld none).dataAs (inbound orderPayload)
        = .ok { ID := 99, Description := "hello", Tag := "x" } ∧
      (exampleWorld none).upload "archive" "order-99.txt" "hello" = none ∧
      (receiveAndReply ⟨"", "archive"⟩ (exampleWorld none) (inbound orderPayload)).1
        = (some ev, Result.ack) ∧
      ev.data = .json [("id", .num 99), ("tag", .str "x"), ("description", .str "")] ∧
      ev.data ≠ .json [("id", .num 99), ("tag", .str "x")] := by
  rw [archiveReply_decoded _ _ _ { ID := 99, Description := "hello", Tag := "x" } rfl]
  exact ⟨_, rfl, rfl, rfl, rfl, by decide⟩

/-- C7, amended: for every decodable request whose upload succeeds, `handle` returns no
error, and the event returned
in reply mode and the event sent in forward mode are the same event, of type
`com.zendesk.tag.create`, whose payload has the members `id` and `tag` of the request,
unchanged, and a member `description` that is always the empty string. -/
theorem outbound_event_keeps_id_and_tag (recv : Receiver) (w : World Request) (event : Event)
    (req : Request) (hdec : w.dataAs event = .ok req)
    (hup : w.upload recv.Bucket (event.Source ++ ".txt") req.Description = none) :
    (handle recv w req event).1 = none ∧
    ∃ ev,
      ev.type = "com.zendesk.tag.create" ∧
      ev.data = .json [("id", .num req.ID), ("tag", .str req.Tag), ("description", .str "")] ∧
      (receiveAndReply recv w event).1 = (some ev, Result.ack) ∧
      (receiveAndSend recv w event).2.filter Effect.isSend = [Effect.send recv.Target ev] ∧
      (receiveAndSend recv w event).1 = w.send recv.Target ev := by
  rw [archiveReply_decoded recv w event req hdec,
    archiveSend_decoded recv w event req hdec, handle_eq]
  exact ⟨hup, _, rfl, rfl, rfl, rfl, rfl⟩

/-- C7 amended, at the end-to-end example. -/
theorem outbound_event_keeps_id_and_tag_witness :
    (handle ⟨"http://sink", "archive"⟩ (exampleWorld none)
      { ID := 99, Description := "hello", Tag := "x" } (inbound orderPayload)).1 = none ∧
    ∃ ev,
      ev.type = "com.zendesk.tag.create" ∧
      ev.data = .json [("id", .num 99), ("tag", .str "x"), ("description", .str "")] ∧
      (receiveAndReply ⟨"http://sink", "archive"⟩ (exampleWorld none)
        (inbound orderPayload)).1 = (some ev, Result.ack) ∧
      (receiveAndSend ⟨"http://sink", "archive"⟩ (exampleWorld none)
        (inbound orderPayload)).2.filter Effect.isSend = [Effect.send "http://sink" ev] ∧
      (receiveAndSend ⟨"http://sink", "archive"⟩ (exampleWorld none)
        (inbound orderPayload)).1 = (exampleWorld none).send "http://sink" ev :=
  outbound_event_keeps_id_and_tag ⟨"http://sink", "archive"⟩ (exampleWorld none)
    (inbound orderPayload) { ID := 99, Description := "hello", Tag := "x" } rfl rfl

end Conditionalization

/-! ## Both services -/

/-- C4: in both services and in both modes, when the payload of the inbound event does
not decode into the `Request` of the service, the handler returns the HTTP-400 result
built from the decoding error, returns no event, and makes no outside call: no
classifier call, no upload, no send. -/
theorem decode_failure_is_client_error
    (rz : Zenformation.Receiver) (wz : World Zenformation.Request) (evz : Event) (ez : Error)
    (rc : Conditionalization.Receiver) (wc : World Conditionalization.Request) (evc : Event)
    (ec : Error)
    (hz : wz.dataAs evz = .error ez) (hc : wc.dataAs evc = .error ec) :
    Zenformation.receiveAndReply rz wz evz
      = ((none, Result.http 400 ("failed to convert data: " ++ ez)), []) ∧
    Zenformation.receiveAndSend rz wz evz
      = (Result.http 400 ("failed to convert data: " ++ ez), []) ∧
    Conditionalization.receiveAndReply rc wc evc
      = ((none, Result.http 400 ("failed to convert data: " ++ ec)), []) ∧
    Conditionalization.receiveAndSend rc wc evc
      = (Result.http 400 ("failed to convert data: " ++ ec), []) := by
  simp only [Zenformation.receiveAndReply, Zenformation.receiveAndSend,
    Conditionalization.receiveAndReply, Conditionalization.receiveAndSend, hz, hc,
    NewHTTPResult, and_self]

/-- C4, at two payloads that are not JSON. -/
theorem decode_failure_is_client_error_witness :
    Zenformation.receiveAndReply ⟨""⟩ (Zenformation.exampleWorld (.ok "NEGATIVE"))
        (Zenformation.inbound "not json")
      = ((none, Result.http 400 ("failed to convert data: " ++ "invalid character")), []) ∧
    Zenformation.receiveAndSend ⟨""⟩ (Zenformation.exampleWorld (.ok "NEGATIVE"))
        (Zenformation.inbound "not json")
      = (Result.http 400 ("failed to convert data: " ++ "invalid character"), []) ∧
    Conditionalization.receiveAndReply ⟨"http://sink", "archive"⟩
        (Conditionalization.exampleWorld none) (Conditionalization.inbound "<order/>")
      = ((none, Result.http 400 ("failed to convert data: " ++ "invalid character")), []) ∧
    Conditionalization.receiveAndSend ⟨"http://sink", "archive"⟩
        (Conditionalization.exampleWorld none) (Conditionalization.inbound "<order/>")
      = (Result.http 400 ("failed to convert data: " ++ "invalid character"), []) :=
  decode_failure_is_client_error ⟨""⟩ (Zenformation.exampleWorld (.ok "NEGATIVE"))
    (Zenformation.inbound "not json") "invalid character"
    ⟨"http://sink", "archive"⟩ (Conditionalization.exampleWorld none)
    (Conditionalization.inbound "<order/>") "invalid character" rfl rfl

/-- C9: in both services `main` binds `receiveAndReply` if and only if the configured
sink address is the empty string and `receiveAndSend` for every other address; the
forward-mode handler of each service makes one call of `client.Send` for a decodable
request, and every call of `client.Send` it makes is addressed to exactly the configured
address. -/
theorem sink_address_selects_handler
    (rz : Zenformation.Receiver) (rc : Conditionalization.Receiver) :
    (Zenformation.main rz = Handler.receiveAndReply ↔ rz.Target = "") ∧
    (Zenformation.main rz = Handler.receiveAndSend ↔ rz.Target ≠ "") ∧
    (Conditionalization.main rc = Handler.receiveAndReply ↔ rc.Target = "") ∧
    (Conditionalization.main rc = Handler.receiveAndSend ↔ rc.Target ≠ "") ∧
    (∀ (w : World Zenformation.Request) (event : Event) (req : Zenformation.Request),
      w.dataAs event = .ok req →
      ∃ ev, (Zenformation.receiveAndSend rz w event).2.filter Effect.isSend
        = [Effect.send rz.Target ev]) ∧
    (∀ (w : World Zenformation.Request) (event : Event) (target : String) (ev : Event),
      Effect.send target ev ∈ (Zenformation.receiveAndSend rz w event).2 →
      target = rz.Target) ∧
    (∀ (w : World Conditionalization.Request) (event : Event)
      (req : Conditionalization.Request),
      w.dataAs event = .ok req →
      ∃ ev, (Conditionalization.receiveAndSend rc w event).2.filter Effect.isSend
        = [Effect.send rc.Target ev]) ∧
    (∀ (w : World Conditionalization.Request) (event : Event) (target : String) (ev : Event),
      Effect.send target ev ∈ (Conditionalization.receiveAndSend rc w event).2 →
      target = rc.Target) := by
  refine ⟨?_, ?_, ?_, ?_, ?_, ?_, ?_, ?_⟩
  · unfold Zenformation.main
    split_ifs with h <;> simp [h]
  · unfold Zenformation.main
    split_ifs with h <;> simp [h]
  · unfold Conditionalization.main
    split_ifs with h <;> simp [h]
  · unfold Conditionalization.main
    split_ifs with h <;> simp [h]
  · intro w event req hdec
    rw [Zenformation.receiveAndSend_decoded rz w event req hdec, Zenformation.handle_trace]
    exact ⟨_, rfl⟩
  · intro w event target ev hmem
    cases hdec : w.dataAs event with
    | error e =>
      simp [Zenformation.receiveAndSend, hdec] at hmem
    | ok req =>
      rw [Zenformation.receiveAndSend_decoded rz w event req hdec,
        Zenformation.handle_trace] at hmem
      simp at hmem
      exact hmem.1
  · intro w event req hdec
    rw [Conditionalization.archiveSend_decoded rc w event req hdec]
    exact ⟨_, rfl⟩
  · intro w event target ev hmem
    cases hdec : w.dataAs event with
    | error e =>
      simp [Conditionalization.receiveAndSend, hdec] at hmem
    | ok req =>
      rw [Conditionalization.archiveSend_decoded rc w event req hdec] at hmem
      simp at hmem
      exact hmem.1
